import Mathlib

/-!
# EtherealEcho: a register virtual machine

A shallow embedding of `VirtualMachine.cpp`.

* `uint32_t` words and `uint8_t` bytes are natural numbers; every arithmetic
  result is reduced `% 2 ^ 32` (or `% 256`) where the C++ type wraps.
* `std::vector` is `List`; `std::stack` is a `List` whose head is the top.
* An access outside a vector (`registers[i]`, `memory[i]`, `operands[i]` with
  `i` not below the size) is undefined behaviour in the source; the embedding
  returns `none` there, and `some` of the next state everywhere else.
* What the engine writes to `std::cout` / `std::cerr` and the native callbacks
  it invokes are recorded, in order, in the `output` trace of the state.
* A snapshot file is the list of its bytes, for the usual 64-bit little-endian
  target: `sizeof(uint32_t) = 4`, `sizeof(size_t) = 8`, `sizeof(bool) = 1`.
-/

namespace EtherealEcho

/-! ## Opcodes (`enum class OpCode : uint32_t`) -/

namespace OpCode

@[match_pattern] def NOP : Nat := 0
@[match_pattern] def LOAD : Nat := 1
@[match_pattern] def STORE : Nat := 2
@[match_pattern] def ADD : Nat := 3
@[match_pattern] def SUB : Nat := 4
@[match_pattern] def MUL : Nat := 5
@[match_pattern] def DIV : Nat := 6
@[match_pattern] def JMP : Nat := 7
@[match_pattern] def JZ : Nat := 8
@[match_pattern] def JNZ : Nat := 9
@[match_pattern] def CALL : Nat := 10
@[match_pattern] def RET : Nat := 11
@[match_pattern] def PUSH : Nat := 12
@[match_pattern] def POP : Nat := 13
@[match_pattern] def AND : Nat := 14
@[match_pattern] def OR : Nat := 15
@[match_pattern] def XOR : Nat := 16
@[match_pattern] def NOT : Nat := 17
@[match_pattern] def CMP : Nat := 18
@[match_pattern] def HLT : Nat := 19
@[match_pattern] def LEA : Nat := 20
@[match_pattern] def SHR : Nat := 21
@[match_pattern] def SHL : Nat := 22
@[match_pattern] def SAR : Nat := 23
@[match_pattern] def SHRA : Nat := 24
@[match_pattern] def MOD : Nat := 25
@[match_pattern] def NEG : Nat := 26
@[match_pattern] def INC : Nat := 27
@[match_pattern] def DEC : Nat := 28
@[match_pattern] def JS : Nat := 29
@[match_pattern] def JC : Nat := 30
@[match_pattern] def JNC : Nat := 31
@[match_pattern] def JNS : Nat := 32
@[match_pattern] def TEST : Nat := 33
@[match_pattern] def MOV : Nat := 34
@[match_pattern] def LOG : Nat := 35
@[match_pattern] def CALLFROMCPP : Nat := 36

end OpCode

/-! ## Machine state -/

/-- One observable action of the engine. -/
inductive Event where
  /-- Bytes sent to `std::cout`, followed by `std::endl`. -/
  | cout (text : List Nat)
  /-- A message sent to `std::cerr`, followed by `std::endl`. -/
  | cerr (text : String)
  /-- The callback `f` of the function table called with `arg`. -/
  | native (f : Nat) (arg : Nat)
  deriving DecidableEq, Repr

/-- The members of `class VirtualMachine`, and the trace of what it has emitted.
A callback (`std::function<void(uint32_t)>`) is named by a number. -/
structure State where
  registers : List Nat
  memory : List Nat
  stack : List Nat
  programCounter : Nat
  functionTable : List (String × Nat)
  signFlag : Bool
  carryFlag : Bool
  instructions : List (Nat × List Nat)
  output : List Event
  deriving DecidableEq, Repr

/-- The constructor `VirtualMachine(numRegisters, memorySize)`. -/
def VirtualMachine (numRegisters memorySize : Nat) : State where
  registers := List.replicate numRegisters 0
  memory := List.replicate memorySize 0
  stack := []
  programCounter := 0
  functionTable := []
  signFlag := false
  carryFlag := false
  instructions := []
  output := []

/-- The value of a `uint32_t` read as `int32_t`. -/
def toInt32 (x : Nat) : Int :=
  if x < 2 ^ 31 then (x : Int) else (x : Int) - 2 ^ 32

/-- The conversion of an `int32_t` result back to `uint32_t`. -/
def ofInt32 (z : Int) : Nat :=
  (z % 2 ^ 32).toNat

namespace State

/-- The assignment `functionTable[name] = func`. -/
def defineFunction (s : State) (name : String) (func : Nat) : State :=
  { s with functionTable := (name, func) :: s.functionTable.filter (fun e => e.1 != name) }

/-- The method `setRegister`: a bounds-checked write. -/
def setRegister (s : State) (index value : Nat) : State :=
  if index < s.registers.length then
    { s with registers := s.registers.set index value }
  else s

/-- The method `getRegister`: a bounds-checked read. -/
def getRegister (s : State) (index : Nat) : Nat :=
  if h : index < s.registers.length then s.registers.get ⟨index, h⟩ else 0

/-- The method `setProgramCounter`. -/
def setProgramCounter (s : State) (pc : Nat) : State :=
  { s with programCounter := pc }

/-- The method `getProgramCounter`. -/
def getProgramCounter (s : State) : Nat :=
  s.programCounter

/-- The method `addInstruction`. -/
def addInstruction (s : State) (op : Nat) (operands : List Nat) : State :=
  { s with instructions := s.instructions ++ [(op, operands)] }

/-- The unchecked write `registers[i] = v`. -/
def writeReg (s : State) (i v : Nat) : Option State :=
  if i < s.registers.length then some { s with registers := s.registers.set i v } else none

/-- The unchecked write `memory[i] = v`. -/
def writeMem (s : State) (i v : Nat) : Option State :=
  if i < s.memory.length then some { s with memory := s.memory.set i v } else none

/-- Appends one event to the trace. -/
def emit (s : State) (e : Event) : State :=
  { s with output := s.output ++ [e] }

/-- The method `loadMemory`: `memcpy(&memory[address], data, length)` with
`length = data.length`. -/
def loadMemory (s : State) (data : List Nat) (address : Nat) : Option State :=
  if address + data.length ≤ s.memory.length ∧ address < s.memory.length then
    some { s with memory := s.memory.take address ++ data ++ s.memory.drop (address + data.length) }
  else none

/-- The method `execute`. -/
def execute (s : State) (op : Nat) (operands : List Nat) : Option State :=
  match op with
  | OpCode.NOP => some s
  | OpCode.LOAD => do
      let d ← operands[0]?
      let addr ← operands[1]?
      let v ← s.memory[addr]?
      s.writeReg d v
  | OpCode.STORE => do
      let r ← operands[0]?
      let addr ← operands[1]?
      let v ← s.registers[r]?
      s.writeMem addr (v % 256)
  | OpCode.ADD => do
      let a ← operands[0]?
      let b ← operands[1]?
      let c ← operands[2]?
      let x ← s.registers[a]?
      let y ← s.registers[b]?
      s.writeReg c ((x + y) % 2 ^ 32)
  | OpCode.SUB => do
      let a ← operands[0]?
      let b ← operands[1]?
      let c ← operands[2]?
      let x ← s.registers[a]?
      let y ← s.registers[b]?
      s.writeReg c ((x + 2 ^ 32 - y) % 2 ^ 32)
  | OpCode.MUL => do
      let a ← operands[0]?
      let b ← operands[1]?
      let c ← operands[2]?
      let x ← s.registers[a]?
      let y ← s.registers[b]?
      s.writeReg c ((x * y) % 2 ^ 32)
  | OpCode.DIV => do
      let b ← operands[1]?
      let y ← s.registers[b]?
      if y ≠ 0 then
        let a ← operands[0]?
        let c ← operands[2]?
        let x ← s.registers[a]?
        s.writeReg c (x / y)
      else some s
  | OpCode.JMP => do
      let t ← operands[0]?
      some (s.setProgramCounter t)
  | OpCode.JZ => do
      let r ← operands[0]?
      if s.getRegister r = 0 then
        let t ← operands[1]?
        some (s.setProgramCounter t)
      else some s
  | OpCode.JNZ => do
      let r ← operands[0]?
      if s.getRegister r ≠ 0 then
        let t ← operands[1]?
        some (s.setProgramCounter t)
      else some s
  | OpCode.CALL => do
      let s1 : State := { s with stack := (s.getProgramCounter + 1) % 2 ^ 32 :: s.stack }
      let t ← operands[0]?
      some (s1.setProgramCounter t)
  | OpCode.RET =>
      match s.stack with
      | [] => some s
      | top :: rest => some { s.setProgramCounter top with stack := rest }
  | OpCode.PUSH => do
      let r ← operands[0]?
      let v ← s.registers[r]?
      some { s with stack := v :: s.stack }
  | OpCode.POP =>
      match s.stack with
      | [] => some s
      | top :: rest => do
          let r ← operands[0]?
          ({ s with stack := rest } : State).writeReg r top
  | OpCode.AND => do
      let a ← operands[0]?
      let b ← operands[1]?
      let c ← operands[2]?
      let x ← s.registers[a]?
      let y ← s.registers[b]?
      s.writeReg c (x &&& y)
  | OpCode.OR => do
      let a ← operands[0]?
      let b ← operands[1]?
      let c ← operands[2]?
      let x ← s.registers[a]?
      let y ← s.registers[b]?
      s.writeReg c (x ||| y)
  | OpCode.XOR => do
      let a ← operands[0]?
      let b ← operands[1]?
      let c ← operands[2]?
      let x ← s.registers[a]?
      let y ← s.registers[b]?
      s.writeReg c (x ^^^ y)
  | OpCode.NOT => do
      let a ← operands[0]?
      let b ← operands[1]?
      let x ← s.registers[a]?
      s.writeReg b (2 ^ 32 - 1 - x)
  | OpCode.CMP => do
      let a ← operands[0]?
      let b ← operands[1]?
      let x ← s.registers[a]?
      let y ← s.registers[b]?
      some { s with signFlag := decide (toInt32 x < toInt32 y), carryFlag := decide (x ≥ y) }
  | OpCode.HLT => some s
  | OpCode.LEA => do
      let d ← operands[0]?
      let v ← operands[1]?
      s.writeReg d v
  | OpCode.SHR => do
      let a ← operands[0]?
      let n ← operands[1]?
      let c ← operands[2]?
      let x ← s.registers[a]?
      s.writeReg c (x >>> (n &&& 0x1F))
  | OpCode.SHL => do
      let a ← operands[0]?
      let n ← operands[1]?
      let c ← operands[2]?
      let x ← s.registers[a]?
      s.writeReg c ((x <<< (n &&& 0x1F)) % 2 ^ 32)
  | OpCode.SAR => do
      let a ← operands[0]?
      let n ← operands[1]?
      let c ← operands[2]?
      let x ← s.registers[a]?
      s.writeReg c (ofInt32 (Int.shiftRight (toInt32 x) (n &&& 0x1F)))
  | OpCode.SHRA => do
      let a ← operands[0]?
      let n ← operands[1]?
      let c ← operands[2]?
      let x ← s.registers[a]?
      s.writeReg c ((x <<< (n &&& 0x1F)) % 2 ^ 32)
  | OpCode.MOD => do
      let b ← operands[1]?
      let y ← s.registers[b]?
      if y ≠ 0 then
        let a ← operands[0]?
        let c ← operands[2]?
        let x ← s.registers[a]?
        s.writeReg c (x % y)
      else some s
  | OpCode.NEG => do
      let a ← operands[0]?
      let b ← operands[1]?
      let x ← s.registers[a]?
      s.writeReg b ((2 ^ 32 - x) % 2 ^ 32)
  | OpCode.INC => do
      let r ← operands[0]?
      let x ← s.registers[r]?
      s.writeReg r ((x + 1) % 2 ^ 32)
  | OpCode.DEC => do
      let r ← operands[0]?
      let x ← s.registers[r]?
      s.writeReg r ((x + 2 ^ 32 - 1) % 2 ^ 32)
  | OpCode.JS =>
      if s.signFlag then do
        let t ← operands[0]?
        some (s.setProgramCounter t)
      else some s
  | OpCode.JC =>
      if s.carryFlag then do
        let t ← operands[0]?
        some (s.setProgramCounter t)
      else some s
  | OpCode.JNC =>
      if !s.carryFlag then do
        let t ← operands[0]?
        some (s.setProgramCounter t)
      else some s
  | OpCode.JNS =>
      if !s.signFlag then do
        let t ← operands[0]?
        some (s.setProgramCounter t)
      else some s
  | OpCode.TEST => do
      let r ← operands[0]?
      let x ← s.registers[r]?
      some { s with signFlag := decide (toInt32 x < 0), carryFlag := decide (x ≠ 0) }
  | OpCode.MOV => do
      let a ← operands[0]?
      let b ← operands[1]?
      let x ← s.registers[a]?
      s.writeReg b x
  | OpCode.LOG => do
      let addr ← operands[0]?
      if addr < s.memory.length then
        let tail := s.memory.drop addr
        let str := tail.takeWhile (fun c => c != 0)
        if str.length < tail.length then some (s.emit (Event.cout str)) else none
      else none
  | OpCode.CALLFROMCPP => do
      let key ← operands[0]?
      match s.functionTable.lookup (Nat.repr key) with
      | some f => do
          let arg ← operands[1]?
          some (s.emit (Event.native f arg))
      | none => some (s.emit (Event.cerr "无法找到方法"))
  | _ => some (s.emit (Event.cerr "未知操作码"))

/-- The loop of `executeInstructions` over a list of instructions. -/
def run (s : State) : List (Nat × List Nat) → Option State
  | [] => some s
  | (op, operands) :: rest =>
      match s.execute op operands with
      | some s1 => run s1 rest
      | none => none

/-- The method `executeInstructions`. -/
def executeInstructions (s : State) : Option State :=
  s.run s.instructions

end State

/-! ## State persistence

`saveStateToFile` and `loadStateFromFile` are embedded on the branch where the
file opens; the other branch only writes a message to `std::cerr`. A read that
runs past the end of the file leaves the variables it fills indeterminate in the
source: the embedding returns `none` there. -/

/-- The `n` bytes of an unsigned `n`-byte object holding `w`, lowest byte first. -/
def toBytes : Nat → Nat → List Nat
  | 0, _ => []
  | n + 1, w => w % 256 :: toBytes n (w / 256)

/-- The unsigned value whose bytes, lowest first, are `bs`. -/
def ofBytes : List Nat → Nat
  | [] => 0
  | b :: bs => b + 256 * ofBytes bs

/-- The byte of a `bool`. -/
def boolByte (b : Bool) : Nat :=
  if b then 1 else 0

/-- The bytes of a sequence of `uint32_t` words, in order. -/
def writeWords : List Nat → List Nat
  | [] => []
  | w :: ws => toBytes 4 w ++ writeWords ws

/-- The body of the loop over `instructions` in `saveStateToFile`: opcode,
operand count, operand words. -/
def writeInstructions : List (Nat × List Nat) → List Nat
  | [] => []
  | (op, operands) :: rest =>
      toBytes 4 op ++ toBytes 8 operands.length ++ writeWords operands ++ writeInstructions rest

/-- One `file.read` of `n` bytes: the bytes read and the rest of the file. -/
def readBytes (n : Nat) (file : List Nat) : Option (List Nat × List Nat) :=
  if n ≤ file.length then some (file.take n, file.drop n) else none

/-- A read of `n` words of four bytes into a vector. -/
def readWords : Nat → List Nat → Option (List Nat × List Nat)
  | 0, file => some ([], file)
  | n + 1, file =>
      match readBytes 4 file with
      | none => none
      | some (bs, rest) =>
          match readWords n rest with
          | none => none
          | some (ws, rest1) => some (ofBytes bs :: ws, rest1)

/-- The loop of `loadStateFromFile` that reads `n` words and pushes each on
`stack` as it is read. -/
def readStack : Nat → List Nat → List Nat → Option (List Nat × List Nat)
  | 0, file, stack => some (stack, file)
  | n + 1, file, stack =>
      match readBytes 4 file with
      | none => none
      | some (bs, rest) => readStack n rest (ofBytes bs :: stack)

/-- The loop of `loadStateFromFile` that reads `n` instructions and appends each
to `instructions` as it is read. -/
def readInstructions :
    Nat → List Nat → List (Nat × List Nat) → Option (List (Nat × List Nat) × List Nat)
  | 0, file, instructions => some (instructions, file)
  | n + 1, file, instructions =>
      match readBytes 4 file with
      | none => none
      | some (op, r1) =>
          match readBytes 8 r1 with
          | none => none
          | some (operandCount, r2) =>
              match readWords (ofBytes operandCount) r2 with
              | none => none
              | some (operands, r3) =>
                  readInstructions n r3 (instructions ++ [(ofBytes op, operands)])

namespace State

/-- The method `saveStateToFile`: the bytes written to the file. -/
def saveStateToFile (s : State) : List Nat :=
  writeWords s.registers
    ++ s.memory
    ++ toBytes 8 s.stack.length
    ++ writeWords s.stack
    ++ toBytes 4 s.programCounter
    ++ [boolByte s.signFlag]
    ++ [boolByte s.carryFlag]
    ++ toBytes 8 s.instructions.length
    ++ writeInstructions s.instructions

/-- The state of `loadStateFromFile` after the file is read and closed, before
the instructions are executed. The registers and the memory keep their sizes,
the stack is pushed on, everything else read replaces what was there. A flag
byte is read as `true` when it is not zero. -/
def readState (s : State) (file : List Nat) : Option State := do
  let s0 : State :=
    { s with
      registers := List.replicate s.registers.length 0
      memory := List.replicate s.memory.length 0
      instructions := [] }
  let (registers, f1) ← readWords s0.registers.length file
  let (memory, f2) ← readBytes s0.memory.length f1
  let (stackSize, f3) ← readBytes 8 f2
  let (stack, f4) ← readStack (ofBytes stackSize) f3 s0.stack
  let (programCounter, f5) ← readBytes 4 f4
  let (signFlag, f6) ← readBytes 1 f5
  let (carryFlag, f7) ← readBytes 1 f6
  let (instructionCount, f8) ← readBytes 8 f7
  let (instructions, _) ← readInstructions (ofBytes instructionCount) f8 s0.instructions
  some { s0 with
    registers := registers
    memory := memory
    stack := stack
    programCounter := ofBytes programCounter
    signFlag := ofBytes signFlag != 0
    carryFlag := ofBytes carryFlag != 0
    instructions := instructions }

/-- The method `loadStateFromFile` on the bytes of the file: the state is read,
then `executeInstructions` runs. -/
def loadStateFromFile (s : State) (file : List Nat) : Option State :=
  match s.readState file with
  | none => none
  | some s1 => s1.executeInstructions

/-- The outcome `o` of a step from `s`, when there is one, has the program of `s`. -/
def KeepsProgram (s : State) (o : Option State) : Prop :=
  ∀ t, o = some t → t.instructions = s.instructions

/-- What a state of the C++ class always satisfies: words fit 32 bits, memory
cells fit a byte, and the sizes written as `size_t` fit 64 bits. -/
def WF (s : State) : Prop :=
  (∀ w ∈ s.registers, w < 2 ^ 32)
  ∧ (∀ b ∈ s.memory, b < 256)
  ∧ (∀ w ∈ s.stack, w < 2 ^ 32)
  ∧ s.stack.length < 2 ^ 64
  ∧ s.programCounter < 2 ^ 32
  ∧ s.instructions.length < 2 ^ 64
  ∧ (∀ i ∈ s.instructions, i.1 < 2 ^ 32 ∧ i.2.length < 2 ^ 64 ∧ ∀ w ∈ i.2, w < 2 ^ 32)

instance (s : State) : Decidable s.WF := by
  unfold WF
  infer_instance

/-- The bytes of the text `Hello, World!` and its terminating zero, as
`example1.cpp` passes them to `loadMemory`. -/
def helloWorldString : List Nat :=
  [72, 101, 108, 108, 111, 44, 32, 87, 111, 114, 108, 100, 33, 0]

/-- The `main` of `example1.cpp`. -/
def example1 : Option State :=
  match (VirtualMachine 10 100).loadMemory helloWorldString 0 with
  | none => none
  | some vm => (vm.addInstruction OpCode.LOG [0]).executeInstructions

/-- The snapshot layout in the words of the specification: the register words
in index order; the memory bytes in address order; the stack element count; the
stack elements from the top down; the program counter; the sign flag; the carry
flag; the instruction count; then for each instruction in program order its
opcode, its operand count and its operand words. -/
def snapshotLayout (s : State) : List Nat :=
  List.flatten
    [ s.registers.flatMap (toBytes 4),
      s.memory,
      toBytes 8 s.stack.length,
      s.stack.flatMap (toBytes 4),
      toBytes 4 s.programCounter,
      [boolByte s.signFlag],
      [boolByte s.carryFlag],
      toBytes 8 s.instructions.length,
      s.instructions.flatMap fun i =>
        List.flatten [toBytes 4 i.1, toBytes 8 i.2.length, i.2.flatMap (toBytes 4)] ]

/-- The outcome `o` of a step from `s`, when there is one, has both flags of `s`. -/
def KeepsFlags (s : State) (o : Option State) : Prop :=
  ∀ t, o = some t → t.signFlag = s.signFlag ∧ t.carryFlag = s.carryFlag

end State

/-! ## Auxiliary facts -/

theorem toInt32_range (x : Nat) (hx : x < 2 ^ 32) :
    -(2 ^ 31 : Int) ≤ toInt32 x ∧ toInt32 x < 2 ^ 31 ∧ (toInt32 x) % 2 ^ 32 = (x : Int) := by
  unfold toInt32
  split <;> omega

theorem ofInt32_toInt32 (x : Nat) (hx : x < 2 ^ 32) : ofInt32 (toInt32 x) = x := by
  unfold ofInt32 toInt32
  split <;> omega

theorem sub_wrap_eq (x y : Nat) (hx : x < 2 ^ 32) (hy : y < 2 ^ 32) :
    (x + 2 ^ 32 - y) % 2 ^ 32 = Int.toNat (((x : Int) - (y : Int)) % 2 ^ 32) := by
  omega

theorem mask5_eq_mod (n : Nat) : n &&& 0x1F = n % 32 := by
  have h := Nat.and_pow_two_sub_one_eq_mod n 5
  simpa using h

namespace State

theorem registers_getElem? (s : State) (i : Nat) (h : i < s.registers.length) :
    s.registers[i]? = some (s.getRegister i) := by
  simp [getRegister, h, List.getElem?_eq_getElem]

theorem registers_mem (s : State) (i : Nat) (h : i < s.registers.length) :
    s.getRegister i ∈ s.registers := by
  simp [getRegister, h, List.getElem_mem]

theorem registers_set_self (s : State) (i : Nat) (h : i < s.registers.length) :
    s.registers.set i (s.getRegister i) = s.registers := by
  apply List.ext_getElem?
  intro j
  rw [List.getElem?_set]
  by_cases hij : i = j
  · subst hij
    simp [h, getRegister]
  · simp [hij]

end State

/-! ## Facts about the snapshot encoding -/

theorem toBytes_length (n w : Nat) : (toBytes n w).length = n := by
  induction n generalizing w with
  | zero => rfl
  | succ n ih => simp [toBytes, ih]

theorem ofBytes_toBytes (n w : Nat) : ofBytes (toBytes n w) = w % 256 ^ n := by
  induction n generalizing w with
  | zero => simp [toBytes, ofBytes, Nat.mod_one]
  | succ n ih => rw [toBytes, ofBytes, ih, pow_succ', Nat.mod_mul]

theorem ofBytes_toBytes_four (w : Nat) (h : w < 2 ^ 32) : ofBytes (toBytes 4 w) = w := by
  rw [ofBytes_toBytes]
  exact Nat.mod_eq_of_lt (by norm_num at h ⊢; exact h)

theorem ofBytes_toBytes_eight (w : Nat) (h : w < 2 ^ 64) : ofBytes (toBytes 8 w) = w := by
  rw [ofBytes_toBytes]
  exact Nat.mod_eq_of_lt (by norm_num at h ⊢; exact h)

theorem readBytes_append (n : Nat) (bs rest : List Nat) (h : bs.length = n) :
    readBytes n (bs ++ rest) = some (bs, rest) := by
  subst h
  simp [readBytes]

theorem readBytes_toBytes (n w : Nat) (rest : List Nat) :
    readBytes n (toBytes n w ++ rest) = some (toBytes n w, rest) :=
  readBytes_append n _ rest (toBytes_length n w)

theorem readWords_writeWords (ws rest : List Nat) (h : ∀ w ∈ ws, w < 2 ^ 32) :
    readWords ws.length (writeWords ws ++ rest) = some (ws, rest) := by
  induction ws with
  | nil => rfl
  | cons w ws ih =>
      have hw : w < 2 ^ 32 := h w (List.mem_cons_self w ws)
      have hws : ∀ x ∈ ws, x < 2 ^ 32 := fun x hx => h x (List.mem_cons_of_mem w hx)
      simp only [writeWords, List.length_cons, readWords, List.append_assoc, readBytes_toBytes,
        ih hws, ofBytes_toBytes_four w hw]

theorem readStack_writeWords (ws rest stack : List Nat) (h : ∀ w ∈ ws, w < 2 ^ 32) :
    readStack ws.length (writeWords ws ++ rest) stack = some (ws.reverse ++ stack, rest) := by
  induction ws generalizing stack with
  | nil => rfl
  | cons w ws ih =>
      have hw : w < 2 ^ 32 := h w (List.mem_cons_self w ws)
      have hws : ∀ x ∈ ws, x < 2 ^ 32 := fun x hx => h x (List.mem_cons_of_mem w hx)
      simp only [writeWords, List.length_cons, readStack, List.append_assoc, readBytes_toBytes,
        ih _ hws, ofBytes_toBytes_four w hw, List.reverse_cons, List.singleton_append]

theorem readInstructions_writeInstructions (is acc : List (Nat × List Nat)) (rest : List Nat)
    (h : ∀ i ∈ is, i.1 < 2 ^ 32 ∧ i.2.length < 2 ^ 64 ∧ ∀ w ∈ i.2, w < 2 ^ 32) :
    readInstructions is.length (writeInstructions is ++ rest) acc = some (acc ++ is, rest) := by
  induction is generalizing acc with
  | nil => simp [readInstructions, writeInstructions]
  | cons i is ih =>
      obtain ⟨op, operands⟩ := i
      obtain ⟨h1, h2, h3⟩ := h (op, operands) (List.mem_cons_self _ _)
      have his : ∀ i ∈ is, i.1 < 2 ^ 32 ∧ i.2.length < 2 ^ 64 ∧ ∀ w ∈ i.2, w < 2 ^ 32 :=
        fun x hx => h x (List.mem_cons_of_mem _ hx)
      simp only [writeInstructions, List.length_cons, readInstructions, List.append_assoc,
        readBytes_toBytes, ofBytes_toBytes_four op h1, ofBytes_toBytes_eight _ h2,
        readWords_writeWords operands _ h3, ih _ his, List.singleton_append]

theorem boolByte_ne_zero (b : Bool) : (ofBytes [boolByte b] != 0) = b := by
  cases b <;> rfl

namespace State

/-- Reading back the snapshot of a well-formed state `s` into a machine `v` with
as many registers and as much memory: every read succeeds; registers, memory,
program counter, flags and program are those of `s`, and the elements of the
stack of `s` are pushed, in the order of the file, on the stack `v` had. -/
theorem readState_saveStateToFile (s v : State) (hs : s.WF)
    (hr : v.registers.length = s.registers.length)
    (hm : v.memory.length = s.memory.length) :
    v.readState s.saveStateToFile
      = some { v with
          registers := s.registers
          memory := s.memory
          stack := s.stack.reverse ++ v.stack
          programCounter := s.programCounter
          signFlag := s.signFlag
          carryFlag := s.carryFlag
          instructions := s.instructions } := by
  obtain ⟨h1, _, h3, h4, h5, h6, h7⟩ := hs
  have e1 := ofBytes_toBytes_eight _ h4
  have e2 := ofBytes_toBytes_four _ h5
  have e3 := ofBytes_toBytes_eight _ h6
  have rb1 : ∀ (b : Nat) (rest : List Nat), readBytes 1 (b :: rest) = some ([b], rest) :=
    fun b rest => readBytes_append 1 [b] rest rfl
  have e4 : readInstructions s.instructions.length (writeInstructions s.instructions) []
      = some (s.instructions, []) := by
    have h := readInstructions_writeInstructions s.instructions [] [] h7
    simpa using h
  simp only [readState, saveStateToFile, List.length_replicate, hr, hm, List.append_assoc,
    readWords_writeWords _ _ h1, readBytes_append _ s.memory _ rfl, readBytes_toBytes, e1, e2, e3,
    e4, readStack_writeWords _ _ _ h3, List.singleton_append, List.cons_append, List.nil_append,
    rb1, boolByte_ne_zero, Option.bind_eq_bind, Option.some_bind, Option.pure_def]

end State

/-! ## The program store is never written by `execute` -/

namespace State

theorem KeepsProgram.some (s t : State) (h : t.instructions = s.instructions) :
    KeepsProgram s (some t) := by
  intro u hu
  cases hu
  exact h

theorem KeepsProgram.none (s : State) : KeepsProgram s none := by
  intro u hu
  cases hu

theorem KeepsProgram.bind {α : Type} (s : State) (o : Option α) (f : α → Option State)
    (h : ∀ a, KeepsProgram s (f a)) : KeepsProgram s (o.bind f) := by
  cases o with
  | none => exact KeepsProgram.none s
  | some a => exact h a

theorem KeepsProgram.ite (s : State) (c : Prop) [Decidable c] (a b : Option State)
    (ha : KeepsProgram s a) (hb : KeepsProgram s b) : KeepsProgram s (if c then a else b) := by
  split
  · exact ha
  · exact hb

theorem KeepsProgram.writeReg (s s1 : State) (i v : Nat) (h : s1.instructions = s.instructions) :
    KeepsProgram s (s1.writeReg i v) := by
  unfold State.writeReg
  exact KeepsProgram.ite _ _ _ _ (KeepsProgram.some _ _ h) (KeepsProgram.none _)

theorem KeepsProgram.writeMem (s s1 : State) (i v : Nat) (h : s1.instructions = s.instructions) :
    KeepsProgram s (s1.writeMem i v) := by
  unfold State.writeMem
  exact KeepsProgram.ite _ _ _ _ (KeepsProgram.some _ _ h) (KeepsProgram.none _)

theorem execute_keepsProgram (s : State) (op : Nat) (operands : List Nat) :
    KeepsProgram s (s.execute op operands) := by
  unfold execute
  split <;> (try simp only [Option.bind_eq_bind]) <;>
    repeat (first
      | exact KeepsProgram.some _ _ rfl
      | exact KeepsProgram.none _
      | exact KeepsProgram.writeReg _ _ _ _ rfl
      | exact KeepsProgram.writeMem _ _ _ _ rfl
      | (apply KeepsProgram.bind; intro _)
      | apply KeepsProgram.ite
      | split)

theorem run_instructions (l : List (Nat × List Nat)) (s t : State) (h : s.run l = some t) :
    t.instructions = s.instructions := by
  induction l generalizing s with
  | nil =>
      simp only [run, Option.some.injEq] at h
      rw [← h]
  | cons i l ih =>
      obtain ⟨op, operands⟩ := i
      simp only [run] at h
      cases hs1 : s.execute op operands with
      | none => simp [hs1] at h
      | some s1 =>
          rw [hs1] at h
          rw [ih s1 h]
          exact execute_keepsProgram s op operands s1 hs1

theorem executeInstructions_instructions (s t : State) (h : s.executeInstructions = some t) :
    t.instructions = s.instructions :=
  run_instructions s.instructions s t h

end State

/-! ## Arithmetic and bitwise instructions -/

open State

/-- C1: for valid register indices `a`, `b`, `c` (aliasing allowed), each of
ADD, SUB, MUL, AND, OR, XOR with operands `[a, b, c]` succeeds and yields the
starting state with register `c` replaced by `f (reg a) (reg b)` on the
pre-state values, where `f` is addition, subtraction and multiplication modulo
`2 ^ 32`, and bitwise and, or, xor; nothing else in the state changes. -/
theorem C1_binary_ops (s : State) (a b c : Nat)
    (hw : ∀ w ∈ s.registers, w < 2 ^ 32)
    (ha : a < s.registers.length) (hb : b < s.registers.length)
    (hc : c < s.registers.length) :
    s.execute OpCode.ADD [a, b, c]
        = some { s with registers := s.registers.set c ((s.getRegister a + s.getRegister b) % 2 ^ 32) }
    ∧ s.execute OpCode.SUB [a, b, c]
        = some { s with registers := (s.registers.set c
                  (Int.toNat (((s.getRegister a : Int) - (s.getRegister b : Int)) % 2 ^ 32))) }
    ∧ s.execute OpCode.MUL [a, b, c]
        = some { s with registers := s.registers.set c ((s.getRegister a * s.getRegister b) % 2 ^ 32) }
    ∧ s.execute OpCode.AND [a, b, c]
        = some { s with registers := s.registers.set c (Nat.land (s.getRegister a) (s.getRegister b)) }
    ∧ s.execute OpCode.OR [a, b, c]
        = some { s with registers := s.registers.set c (Nat.lor (s.getRegister a) (s.getRegister b)) }
    ∧ s.execute OpCode.XOR [a, b, c]
        = some { s with registers := s.registers.set c (Nat.xor (s.getRegister a) (s.getRegister b)) } := by
  have hx := hw _ (s.registers_mem a ha)
  have hy := hw _ (s.registers_mem b hb)
  have hsub := sub_wrap_eq _ _ hx hy
  have ea := s.registers_getElem? a ha
  have eb := s.registers_getElem? b hb
  refine ⟨?_, ?_, ?_, ?_, ?_, ?_⟩ <;>
    simp only [execute, writeReg, ea, eb, hc, hsub, List.getElem?_cons_zero,
      List.getElem?_cons_succ, Option.bind_eq_bind, Option.some_bind, if_true] <;> rfl

/-- Witness of C1: with `r0 = 2`, `r1 = 3`, `ADD [0, 1, 2]` gives `r2 = 5`. -/
theorem C1_binary_ops_witness :
    ({ VirtualMachine 3 4 with registers := [2, 3, 0] } : State).execute OpCode.ADD [0, 1, 2]
      = some { VirtualMachine 3 4 with registers := [2, 3, 5] } :=
  (C1_binary_ops { VirtualMachine 3 4 with registers := [2, 3, 0] } 0 1 2
    (by decide) (by decide) (by decide) (by decide)).1

/-- C2: for valid register indices `a`, `b`, `c`: when register `b` holds zero,
DIV and MOD with operands `[a, b, c]` return the state unchanged; otherwise DIV
stores the unsigned quotient and MOD the unsigned remainder of register `a` by
register `b` in register `c` and change nothing else. -/
theorem C2_div_mod (s : State) (a b c : Nat)
    (ha : a < s.registers.length) (hb : b < s.registers.length)
    (hc : c < s.registers.length) :
    (s.getRegister b = 0 →
        s.execute OpCode.DIV [a, b, c] = some s ∧ s.execute OpCode.MOD [a, b, c] = some s)
    ∧ (s.getRegister b ≠ 0 →
        s.execute OpCode.DIV [a, b, c]
          = some { s with registers := s.registers.set c (s.getRegister a / s.getRegister b) }
        ∧ s.execute OpCode.MOD [a, b, c]
          = some { s with registers := s.registers.set c (s.getRegister a % s.getRegister b) }) := by
  have ea := s.registers_getElem? a ha
  have eb := s.registers_getElem? b hb
  constructor
  · intro h0
    constructor <;>
      simp [execute, eb, h0]
  · intro h0
    constructor <;>
      simp [execute, writeReg, ea, eb, hc, h0]

/-- Witness of C2: with `r0 = 10`, `r1 = 0` and `r2 = 7`, `DIV [0, 1, 2]` leaves
the state, and so `r2`, as it was. -/
theorem C2_div_mod_witness :
    ({ VirtualMachine 3 4 with registers := [10, 0, 7] } : State).execute OpCode.DIV [0, 1, 2]
      = some { VirtualMachine 3 4 with registers := [10, 0, 7] } :=
  ((C2_div_mod { VirtualMachine 3 4 with registers := [10, 0, 7] } 0 1 2
    (by decide) (by decide) (by decide)).1 (by decide)).1

/-! ## Comparison -/

/-- C3: for valid register indices `a`, `b`, CMP with operands `[a, b]` succeeds
and yields the starting state with the sign flag set iff register `a` is below
register `b` as signed 32-bit integers and the carry flag set iff register `a`
is at least register `b` as unsigned integers; nothing else changes. -/
theorem C3_cmp (s : State) (a b : Nat)
    (ha : a < s.registers.length) (hb : b < s.registers.length) :
    s.execute OpCode.CMP [a, b]
      = some { s with
          signFlag := decide (toInt32 (s.getRegister a) < toInt32 (s.getRegister b))
          carryFlag := decide (s.getRegister b ≤ s.getRegister a) } := by
  have ea := s.registers_getElem? a ha
  have eb := s.registers_getElem? b hb
  simp [execute, ea, eb]

/-- Witness of C3: `0xFFFFFFFF` against `1` is below as signed (it is `-1`) and
not below as unsigned: both flags come out set. -/
theorem C3_cmp_witness :
    ({ VirtualMachine 2 0 with registers := [0xFFFFFFFF, 1] } : State).execute OpCode.CMP [0, 1]
      = some { VirtualMachine 2 0 with
          registers := [0xFFFFFFFF, 1], signFlag := true, carryFlag := true } :=
  C3_cmp { VirtualMachine 2 0 with registers := [0xFFFFFFFF, 1] } 0 1 (by decide) (by decide)

/-! ## Stack instructions -/

/-- C4: for a valid register index `r`, PUSH `[r]` followed by POP `[r]` succeeds
and gives back the starting state exactly; for a valid `r2`, PUSH `[r]` followed
by POP `[r2]` gives the starting state with register `r2` replaced by the
original value of register `r`, the stack being as it was. -/
theorem C4_push_pop (s : State) (r r2 : Nat)
    (hr : r < s.registers.length) (hr2 : r2 < s.registers.length) :
    ((s.execute OpCode.PUSH [r]).bind fun s1 => s1.execute OpCode.POP [r]) = some s
    ∧ ((s.execute OpCode.PUSH [r]).bind fun s1 => s1.execute OpCode.POP [r2])
        = some { s with registers := s.registers.set r2 (s.getRegister r) } := by
  have er := s.registers_getElem? r hr
  have hself := s.registers_set_self r hr
  constructor
  · simp [execute, writeReg, er, hr, hself]
  · simp [execute, writeReg, er, hr2]

/-- Witness of C4: on a machine with a non-empty stack, PUSH `[0]` then POP `[1]`
copies `r0` to `r1` and leaves the stack `[9, 8]`. -/
theorem C4_push_pop_witness :
    (({ VirtualMachine 2 0 with registers := [5, 6], stack := [9, 8] } : State).execute
        OpCode.PUSH [0]).bind (fun s1 => s1.execute OpCode.POP [1])
      = some { VirtualMachine 2 0 with registers := [5, 5], stack := [9, 8] } :=
  (C4_push_pop { VirtualMachine 2 0 with registers := [5, 6], stack := [9, 8] } 0 1
    (by decide) (by decide)).2

/-- C5: CALL `[t]` succeeds, pushes `(pc + 1) % 2 ^ 32` and sets the program
counter to `t`; RET `[]` executed next succeeds and yields the starting state
with the program counter at `(pc + 1) % 2 ^ 32`: the stack is as before the
CALL and registers, memory and flags never changed. -/
theorem C5_call_ret (s : State) (t : Nat) :
    s.execute OpCode.CALL [t]
      = some { s with
          stack := (s.programCounter + 1) % 2 ^ 32 :: s.stack
          programCounter := t }
    ∧ ((s.execute OpCode.CALL [t]).bind fun s1 => s1.execute OpCode.RET [])
      = some { s with programCounter := (s.programCounter + 1) % 2 ^ 32 } := by
  constructor <;>
    simp [execute, setProgramCounter, getProgramCounter]

/-- C9: on an empty stack, POP `[r]` (for every `r`, the valid register indices
included) and RET `[]` both succeed and return the state unchanged. -/
theorem C9_empty_stack (s : State) (r : Nat) (h : s.stack = []) :
    s.execute OpCode.POP [r] = some s ∧ s.execute OpCode.RET [] = some s := by
  constructor <;>
    simp [execute, h]

/-- Witness of C9 on a freshly constructed machine, whose stack is empty. -/
theorem C9_empty_stack_witness :
    (VirtualMachine 2 2).execute OpCode.POP [0] = some (VirtualMachine 2 2)
    ∧ (VirtualMachine 2 2).execute OpCode.RET [] = some (VirtualMachine 2 2) :=
  C9_empty_stack (VirtualMachine 2 2) 0 rfl

/-! ## Shifts -/

/-- C8, as the claim states it, fails: with `r0 = 0x80000010` and `r1 = 3`, SHL,
SHR and SAR with operands `[0, 1, 2]` shift by the operand `1` itself, not by
the content `3` of register 1. -/
theorem C8_counterexample :
    (({ VirtualMachine 3 0 with registers := [0x80000010, 3, 0] } : State).execute
        OpCode.SHL [0, 1, 2]
      = some { VirtualMachine 3 0 with registers := [0x80000010, 3, 0x20] }
      ∧ (0x80000010 * 2 ^ (3 % 32)) % 2 ^ 32 ≠ 0x20)
    ∧ (({ VirtualMachine 3 0 with registers := [0x80000010, 3, 0] } : State).execute
        OpCode.SHR [0, 1, 2]
      = some { VirtualMachine 3 0 with registers := [0x80000010, 3, 0x40000008] }
      ∧ 0x80000010 / 2 ^ (3 % 32) ≠ 0x40000008)
    ∧ (({ VirtualMachine 3 0 with registers := [0x80000010, 3, 0] } : State).execute
        OpCode.SAR [0, 1, 2]
      = some { VirtualMachine 3 0 with registers := [0x80000010, 3, 0xC0000008] }
      ∧ ofInt32 (Int.fdiv (toInt32 0x80000010) (2 ^ (3 % 32))) ≠ 0xC0000008) := by
  decide

/-- C8, amended: for valid register indices `a`, `c` and every second operand
`n` (an immediate shift count, not a register index), SHL, SHR and SAR with
operands `[a, n, c]` succeed and set register `c` to `(reg a * 2 ^ (n % 32)) %
2 ^ 32`, to `reg a / 2 ^ (n % 32)`, and to the 32-bit two's-complement encoding
of the floor of `signed (reg a) / 2 ^ (n % 32)`; nothing else changes. -/
theorem C8_shift_immediate (s : State) (a n c : Nat)
    (ha : a < s.registers.length) (hc : c < s.registers.length) :
    s.execute OpCode.SHL [a, n, c]
      = some { s with registers := s.registers.set c ((s.getRegister a * 2 ^ (n % 32)) % 2 ^ 32) }
    ∧ s.execute OpCode.SHR [a, n, c]
      = some { s with registers := s.registers.set c (s.getRegister a / 2 ^ (n % 32)) }
    ∧ s.execute OpCode.SAR [a, n, c]
      = some { s with registers := (s.registers.set c
                (ofInt32 (Int.fdiv (toInt32 (s.getRegister a)) (2 ^ (n % 32))))) } := by
  have ea := s.registers_getElem? a ha
  have hm := mask5_eq_mod n
  have hsar : Int.shiftRight (toInt32 (s.getRegister a)) (n % 32)
      = Int.fdiv (toInt32 (s.getRegister a)) (2 ^ (n % 32)) := by
    have h1 := Int.shiftRight_eq_div_pow (toInt32 (s.getRegister a)) (n % 32)
    have h2 : (0 : Int) ≤ 2 ^ (n % 32) := by positivity
    rw [Int.fdiv_eq_ediv _ h2]
    simpa using h1
  refine ⟨?_, ?_, ?_⟩
  · simp only [execute, writeReg, ea, hc, hm, Nat.shiftLeft_eq, List.getElem?_cons_zero,
      List.getElem?_cons_succ, Option.bind_eq_bind, Option.some_bind, if_true]
  · simp only [execute, writeReg, ea, hc, hm, Nat.shiftRight_eq_div_pow, List.getElem?_cons_zero,
      List.getElem?_cons_succ, Option.bind_eq_bind, Option.some_bind, if_true]
  · simp only [execute, writeReg, ea, hc, hm, hsar, List.getElem?_cons_zero,
      List.getElem?_cons_succ, Option.bind_eq_bind, Option.some_bind, if_true]

/-- Witness of C8, amended: `0x80000010` shifted left by the operand `33`, which
is masked to `1`, gives `0x20`; the count operand need not name a register. -/
theorem C8_shift_immediate_witness :
    ({ VirtualMachine 3 0 with registers := [0x80000010, 3, 0] } : State).execute
        OpCode.SHL [0, 33, 2]
      = some { VirtualMachine 3 0 with registers := [0x80000010, 3, 0x20] } :=
  (C8_shift_immediate { VirtualMachine 3 0 with registers := [0x80000010, 3, 0] } 0 33 2
    (by decide) (by decide)).1

/-! ## Register accessors -/

/-- C10: `getRegister i` returns register `i` when `i` is below the register
count and `0` otherwise; `setRegister i v` replaces register `i` by `v` and
nothing else when `i` is below the register count and returns the state
unchanged otherwise; so a valid `i` reads back `v` after `setRegister i v`, and
every other index `j` reads what it read before. -/
theorem C10_accessors (s : State) (i j v : Nat) :
    (i < s.registers.length → s.registers[i]? = some (s.getRegister i))
    ∧ (¬ i < s.registers.length → s.getRegister i = 0)
    ∧ (i < s.registers.length →
        s.setRegister i v = { s with registers := s.registers.set i v })
    ∧ (¬ i < s.registers.length → s.setRegister i v = s)
    ∧ (i < s.registers.length → (s.setRegister i v).getRegister i = v)
    ∧ (j ≠ i → (s.setRegister i v).getRegister j = s.getRegister j) := by
  refine ⟨fun h => s.registers_getElem? i h, ?_, ?_, ?_, ?_, ?_⟩
  · intro h
    simp [getRegister, h]
  · intro h
    simp [setRegister, h]
  · intro h
    simp [setRegister, h]
  · intro h
    simp [setRegister, getRegister, h]
  · intro h
    by_cases hi : i < s.registers.length
    · simp [setRegister, getRegister, hi, List.getElem_set_ne (Ne.symm h)]
    · simp [setRegister, hi]

/-- Witness of C10 on the registers `[4, 5]`: index `1` reads back the written
`9`, index `0` still reads `4`, and the out-of-range index `7` reads `0`. -/
theorem C10_accessors_witness :
    (({ VirtualMachine 2 0 with registers := [4, 5] } : State).setRegister 1 9).getRegister 1 = 9
    ∧ (({ VirtualMachine 2 0 with registers := [4, 5] } : State).setRegister 1 9).getRegister 0
        = ({ VirtualMachine 2 0 with registers := [4, 5] } : State).getRegister 0
    ∧ ({ VirtualMachine 2 0 with registers := [4, 5] } : State).getRegister 7 = 0 :=
  ⟨(C10_accessors { VirtualMachine 2 0 with registers := [4, 5] } 1 0 9).2.2.2.2.1 (by decide),
   (C10_accessors { VirtualMachine 2 0 with registers := [4, 5] } 1 0 9).2.2.2.2.2 (by decide),
   (C10_accessors { VirtualMachine 2 0 with registers := [4, 5] } 7 0 9).2.1 (by decide)⟩

/-! ## Save and load -/

/-- C6, as the claim states it, fails. A machine with one register holding `0`
and the program `INC [0]` comes back from its own snapshot with the register at
`1`, because loading runs the restored program; and a machine with the stack
`[1, 2]` (top first) and no program comes back with the stack `[2, 1]`. -/
theorem C6_counterexample :
    ((VirtualMachine 1 0).loadStateFromFile
          ({ VirtualMachine 1 0 with instructions := [(OpCode.INC, [0])] } : State).saveStateToFile
        = some { VirtualMachine 1 0 with registers := [1], instructions := [(OpCode.INC, [0])] }
      ∧ ((VirtualMachine 1 0).loadStateFromFile
          ({ VirtualMachine 1 0 with instructions := [(OpCode.INC, [0])] } : State).saveStateToFile).map
            State.registers
        ≠ some ({ VirtualMachine 1 0 with instructions := [(OpCode.INC, [0])] } : State).registers)
    ∧ ((VirtualMachine 0 0).loadStateFromFile
          ({ VirtualMachine 0 0 with stack := [1, 2] } : State).saveStateToFile
        = some { VirtualMachine 0 0 with stack := [2, 1] }
      ∧ ((VirtualMachine 0 0).loadStateFromFile
          ({ VirtualMachine 0 0 with stack := [1, 2] } : State).saveStateToFile).map State.stack
        ≠ some ({ VirtualMachine 0 0 with stack := [1, 2] } : State).stack) := by
  decide

/-- C6, amended: let `s` be a well-formed state and `v` a machine with as many
registers and as much memory as `s` and an empty stack (a freshly constructed
one, whatever callbacks were registered on it). Loading the snapshot of `s` into
`v` first restores a machine `r` whose registers, memory, program counter, flags
and program are those of `s` and whose stack holds the elements of the stack of
`s` (the same stack when it has at most one element), and then runs the program
of `r` once: the machine produced is the outcome of that run. Its program is
that of `s`, and when the program of `s` is empty it is `r` itself. -/
theorem C6_save_load (s v : State) (hs : s.WF)
    (hr : v.registers.length = s.registers.length)
    (hm : v.memory.length = s.memory.length)
    (hv : v.stack = []) :
    ∃ r : State,
      r.registers = s.registers ∧ r.memory = s.memory
      ∧ List.Perm r.stack s.stack ∧ (s.stack.length ≤ 1 → r.stack = s.stack)
      ∧ r.programCounter = s.programCounter
      ∧ r.signFlag = s.signFlag ∧ r.carryFlag = s.carryFlag
      ∧ r.instructions = s.instructions
      ∧ r.functionTable = v.functionTable ∧ r.output = v.output
      ∧ v.loadStateFromFile s.saveStateToFile = r.executeInstructions
      ∧ (∀ t, v.loadStateFromFile s.saveStateToFile = some t → t.instructions = s.instructions)
      ∧ (s.instructions = [] → v.loadStateFromFile s.saveStateToFile = some r) := by
  have hread := readState_saveStateToFile s v hs hr hm
  rw [hv, List.append_nil] at hread
  have hload : v.loadStateFromFile s.saveStateToFile
      = ({ v with
          registers := s.registers
          memory := s.memory
          stack := s.stack.reverse
          programCounter := s.programCounter
          signFlag := s.signFlag
          carryFlag := s.carryFlag
          instructions := s.instructions } : State).executeInstructions := by
    simp only [loadStateFromFile, hread]
  refine ⟨{ v with
      registers := s.registers
      memory := s.memory
      stack := s.stack.reverse
      programCounter := s.programCounter
      signFlag := s.signFlag
      carryFlag := s.carryFlag
      instructions := s.instructions },
    rfl, rfl, List.reverse_perm _, ?_, rfl, rfl, rfl, rfl, rfl, rfl, hload, ?_, ?_⟩
  · intro hlen
    match hst : s.stack, hlen with
    | [], _ => rfl
    | [_], _ => rfl
    | _ :: _ :: _, h => simp at h
  · intro t ht
    rw [hload] at ht
    have h := executeInstructions_instructions _ t ht
    exact h
  · intro hnil
    rw [hload]
    simp only [executeInstructions, hnil, run]

/-- Witness of C6, amended: a machine with a one-element stack and the program
`INC [0]`, saved and loaded into a fresh `VirtualMachine 2 3` on which a
callback was registered. -/
theorem C6_save_load_witness :
    ∃ r : State,
      r.registers = [7, 0x01020304] ∧ r.memory = [1, 2, 3]
      ∧ List.Perm r.stack [9] ∧ (([9] : List Nat).length ≤ 1 → r.stack = [9])
      ∧ r.programCounter = 5
      ∧ r.signFlag = true ∧ r.carryFlag = false
      ∧ r.instructions = [(OpCode.INC, [0])]
      ∧ r.functionTable = [("0", 1)] ∧ r.output = []
      ∧ ((VirtualMachine 2 3).defineFunction "0" 1).loadStateFromFile
          ({ VirtualMachine 2 3 with
              registers := [7, 0x01020304], memory := [1, 2, 3], stack := [9],
              programCounter := 5, signFlag := true,
              instructions := [(OpCode.INC, [0])] } : State).saveStateToFile
          = r.executeInstructions
      ∧ (∀ t, ((VirtualMachine 2 3).defineFunction "0" 1).loadStateFromFile
          ({ VirtualMachine 2 3 with
              registers := [7, 0x01020304], memory := [1, 2, 3], stack := [9],
              programCounter := 5, signFlag := true,
              instructions := [(OpCode.INC, [0])] } : State).saveStateToFile = some t →
            t.instructions = [(OpCode.INC, [0])])
      ∧ ([(OpCode.INC, [0])] = ([] : List (Nat × List Nat)) →
          ((VirtualMachine 2 3).defineFunction "0" 1).loadStateFromFile
          ({ VirtualMachine 2 3 with
              registers := [7, 0x01020304], memory := [1, 2, 3], stack := [9],
              programCounter := 5, signFlag := true,
              instructions := [(OpCode.INC, [0])] } : State).saveStateToFile = some r) :=
  C6_save_load
    { VirtualMachine 2 3 with
        registers := [7, 0x01020304], memory := [1, 2, 3], stack := [9],
        programCounter := 5, signFlag := true, instructions := [(OpCode.INC, [0])] }
    ((VirtualMachine 2 3).defineFunction "0" 1) (by decide) (by decide) (by decide) (by decide)

/-- C7 at the failing input: the snapshot of a fresh one-register, one-byte
machine is loaded into two machines that differ only in their prior stack; the
machine that held `[5]` still holds it after the load, so the two final states
differ. -/
theorem C7_prior_stack_survives :
    (VirtualMachine 1 1).loadStateFromFile (VirtualMachine 1 1).saveStateToFile
        = some (VirtualMachine 1 1)
    ∧ ({ VirtualMachine 1 1 with stack := [5] } : State).loadStateFromFile
          (VirtualMachine 1 1).saveStateToFile
        = some { VirtualMachine 1 1 with stack := [5] }
    ∧ (VirtualMachine 1 1).loadStateFromFile (VirtualMachine 1 1).saveStateToFile
        ≠ ({ VirtualMachine 1 1 with stack := [5] } : State).loadStateFromFile
            (VirtualMachine 1 1).saveStateToFile := by
  decide

/-! ## Flags -/

namespace State

theorem keepsFlags_some (s t : State) (h1 : t.signFlag = s.signFlag)
    (h2 : t.carryFlag = s.carryFlag) : KeepsFlags s (some t) := by
  intro u hu
  cases hu
  exact ⟨h1, h2⟩

theorem keepsFlags_none (s : State) : KeepsFlags s none := by
  intro u hu
  cases hu

theorem keepsFlags_bind {α : Type} (s : State) (o : Option α) (f : α → Option State)
    (h : ∀ a, KeepsFlags s (f a)) : KeepsFlags s (o.bind f) := by
  cases o with
  | none => exact keepsFlags_none s
  | some a => exact h a

theorem keepsFlags_ite (s : State) (c : Prop) [Decidable c] (a b : Option State)
    (ha : KeepsFlags s a) (hb : KeepsFlags s b) : KeepsFlags s (if c then a else b) := by
  split
  · exact ha
  · exact hb

theorem keepsFlags_writeReg (s s1 : State) (i v : Nat) (h1 : s1.signFlag = s.signFlag)
    (h2 : s1.carryFlag = s.carryFlag) : KeepsFlags s (s1.writeReg i v) := by
  unfold State.writeReg
  exact keepsFlags_ite _ _ _ _ (keepsFlags_some _ _ h1 h2) (keepsFlags_none _)

theorem keepsFlags_writeMem (s s1 : State) (i v : Nat) (h1 : s1.signFlag = s.signFlag)
    (h2 : s1.carryFlag = s.carryFlag) : KeepsFlags s (s1.writeMem i v) := by
  unfold State.writeMem
  exact keepsFlags_ite _ _ _ _ (keepsFlags_some _ _ h1 h2) (keepsFlags_none _)

theorem execute_keepsFlags (s : State) (op : Nat) (operands : List Nat)
    (h1 : op ≠ OpCode.CMP) (h2 : op ≠ OpCode.TEST) :
    KeepsFlags s (s.execute op operands) := by
  unfold execute
  split <;> (try simp only [Option.bind_eq_bind]) <;>
    repeat (first
      | exact absurd rfl h1
      | exact absurd rfl h2
      | exact keepsFlags_some _ _ rfl rfl
      | exact keepsFlags_none _
      | exact keepsFlags_writeReg _ _ _ _ rfl rfl
      | exact keepsFlags_writeMem _ _ _ _ rfl rfl
      | (apply keepsFlags_bind; intro _)
      | apply keepsFlags_ite
      | split)

theorem execute_unknown (s : State) (op : Nat) (operands : List Nat)
    (h : OpCode.CALLFROMCPP < op) :
    s.execute op operands = some (s.emit (Event.cerr "未知操作码")) := by
  unfold execute
  split <;> first
    | (simp only [OpCode.CALLFROMCPP] at h; omega)
    | rfl

end State

/-- C11: for every opcode other than CMP and TEST, unknown opcode values
included, and every operand list on which `execute` is defined (the operand
list is well-formed for the opcode), the state after `execute` has the sign
flag and the carry flag of the state before. An unknown opcode value is defined
on every operand list: it only writes a message to `std::cerr`. -/
theorem C11_flags_frame (s : State) (op : Nat) (operands : List Nat)
    (h1 : op ≠ OpCode.CMP) (h2 : op ≠ OpCode.TEST) :
    (∀ t, s.execute op operands = some t →
        t.signFlag = s.signFlag ∧ t.carryFlag = s.carryFlag)
    ∧ (OpCode.CALLFROMCPP < op →
        s.execute op operands = some { s with output := s.output ++ [Event.cerr "未知操作码"] }) :=
  ⟨execute_keepsFlags s op operands h1 h2, fun h => execute_unknown s op operands h⟩

/-- Witness of C11: SUB on a machine with both flags set leaves them set, and
the unknown opcode value `99` is defined and leaves them set too. -/
theorem C11_flags_frame_witness :
    (∀ t, ({ VirtualMachine 3 0 with
              registers := [2, 3, 0], signFlag := true, carryFlag := true } : State).execute
            OpCode.SUB [0, 1, 2] = some t →
        t.signFlag = true ∧ t.carryFlag = true)
    ∧ ({ VirtualMachine 3 0 with
          registers := [2, 3, 0], signFlag := true, carryFlag := true } : State).execute
            OpCode.SUB [0, 1, 2]
        = some { VirtualMachine 3 0 with
            registers := [2, 3, 0xFFFFFFFF], signFlag := true, carryFlag := true }
    ∧ (∀ t, ({ VirtualMachine 3 0 with signFlag := true, carryFlag := true } : State).execute
            99 [] = some t →
        t.signFlag = true ∧ t.carryFlag = true)
    ∧ ({ VirtualMachine 3 0 with signFlag := true, carryFlag := true } : State).execute 99 []
        = some { VirtualMachine 3 0 with
            signFlag := true, carryFlag := true, output := [Event.cerr "未知操作码"] } :=
  ⟨(C11_flags_frame { VirtualMachine 3 0 with
        registers := [2, 3, 0], signFlag := true, carryFlag := true }
      OpCode.SUB [0, 1, 2] (by decide) (by decide)).1,
    by decide,
    (C11_flags_frame { VirtualMachine 3 0 with signFlag := true, carryFlag := true }
      99 [] (by decide) (by decide)).1,
    (C11_flags_frame { VirtualMachine 3 0 with signFlag := true, carryFlag := true }
      99 [] (by decide) (by decide)).2 (by decide)⟩

/-! ## Running a program -/

namespace State

theorem run_eq_foldlM (l : List (Nat × List Nat)) (s : State) :
    s.run l = l.foldlM (fun (st : State) (i : Nat × List Nat) => st.execute i.1 i.2) s := by
  induction l generalizing s with
  | nil => rfl
  | cons i l ih =>
      obtain ⟨op, operands⟩ := i
      simp only [run, List.foldlM_cons, Option.bind_eq_bind]
      cases s.execute op operands with
      | none => rfl
      | some s1 => exact ih s1

theorem run_append (p q : List (Nat × List Nat)) (s : State) :
    s.run (p ++ q) = (s.run p).bind fun s1 => s1.run q := by
  induction p generalizing s with
  | nil => rfl
  | cons i p ih =>
      obtain ⟨op, operands⟩ := i
      simp only [List.cons_append, run]
      cases s.execute op operands with
      | none => rfl
      | some s1 => exact ih s1

end State

/-- C12: `executeInstructions` is the left fold of `execute` over the program
store, in append order; so running `p ++ q` is running `p` and then `q` from
the state `p` produced, whatever the program counter became; and HLT does not
stop a run: `p ++ [HLT] ++ q` runs to the same outcome as `p ++ q`. -/
theorem C12_run_is_fold (s : State) (p q : List (Nat × List Nat)) (operands : List Nat) :
    s.executeInstructions
        = s.instructions.foldlM (fun (st : State) (i : Nat × List Nat) => st.execute i.1 i.2) s
    ∧ s.run (p ++ q) = ((s.run p).bind fun s1 => s1.run q)
    ∧ s.run (p ++ [(OpCode.HLT, operands)] ++ q) = s.run (p ++ q) := by
  refine ⟨run_eq_foldlM _ s, run_append p q s, ?_⟩
  rw [List.append_assoc, run_append, run_append p q]
  cases s.run p with
  | none => rfl
  | some s1 => rfl

/-! ## Native callbacks -/

namespace State

theorem lookup_defineFunction (s : State) (name : String) (f : Nat) :
    (s.defineFunction name f).functionTable.lookup name = some f := by
  simp [defineFunction, List.lookup]

theorem lookup_filter_ne (l : List (String × Nat)) (name other : String) (h : other ≠ name) :
    (l.filter fun e => e.1 != other).lookup name = l.lookup name := by
  induction l with
  | nil => rfl
  | cons e l ih =>
      obtain ⟨key, g⟩ := e
      by_cases hk : key = other
      · subst hk
        have hne : (name == key) = false := by
          simpa using fun h1 => h h1.symm
        simp [List.filter_cons, List.lookup_cons, hne, ih]
      · have hk1 : (key != other) = true := by simpa using hk
        simp only [List.filter_cons, hk1, if_true, List.lookup_cons, ih]

theorem lookup_defineFunction_ne (s : State) (name other : String) (g : Nat)
    (h : other ≠ name) :
    (s.defineFunction other g).functionTable.lookup name = s.functionTable.lookup name := by
  have hne : (name == other) = false := by
    simpa using fun h1 => h h1.symm
  simp only [defineFunction, List.lookup_cons, hne]
  exact lookup_filter_ne _ _ _ h

end State

/-- C13: when the function table maps the decimal string of `k` to the callback
`f`, as it does after `defineFunction` registered `f` under that string,
CALLFROMCPP `[k, a]` succeeds and its only effect is one invocation of `f` with
argument `a`; when the table has no entry for that string, its only effect is a
message on `std::cerr` and no callback is invoked. Registers, memory, stack,
flags, program counter and program are unchanged in both cases. Registering
under another string leaves the entry of the decimal string of `k` as it was. -/
theorem C13_native_dispatch (s : State) (k a f : Nat) :
    (s.defineFunction (Nat.repr k) f).execute OpCode.CALLFROMCPP [k, a]
        = some { s.defineFunction (Nat.repr k) f with
            output := (s.defineFunction (Nat.repr k) f).output ++ [Event.native f a] }
    ∧ (s.functionTable.lookup (Nat.repr k) = some f →
        s.execute OpCode.CALLFROMCPP [k, a]
          = some { s with output := s.output ++ [Event.native f a] })
    ∧ (s.functionTable.lookup (Nat.repr k) = none →
        s.execute OpCode.CALLFROMCPP [k, a]
          = some { s with output := s.output ++ [Event.cerr "无法找到方法"] })
    ∧ (∀ (other : String) (g : Nat), other ≠ Nat.repr k →
        (s.defineFunction other g).functionTable.lookup (Nat.repr k)
          = s.functionTable.lookup (Nat.repr k)) := by
  have hdef := s.lookup_defineFunction (Nat.repr k) f
  refine ⟨?_, ?_, ?_, fun other g h => s.lookup_defineFunction_ne _ other g h⟩
  · simp only [execute, hdef, emit, List.getElem?_cons_zero, List.getElem?_cons_succ,
      Option.bind_eq_bind, Option.some_bind]
  · intro h
    simp only [execute, h, emit, List.getElem?_cons_zero, List.getElem?_cons_succ,
      Option.bind_eq_bind, Option.some_bind]
  · intro h
    simp only [execute, h, emit, List.getElem?_cons_zero, Option.bind_eq_bind, Option.some_bind]

/-- Witness of C13: a callback registered under key `7`; CALLFROMCPP `[7, 42]`
gives exactly one invocation, with `42`; and with no callback under `8`,
CALLFROMCPP `[8, 42]` invokes nothing. -/
theorem C13_native_dispatch_witness :
    ((VirtualMachine 10 100).defineFunction "7" 1).execute OpCode.CALLFROMCPP [7, 42]
        = some { VirtualMachine 10 100 with
            functionTable := [("7", 1)], output := [Event.native 1 42] }
    ∧ ((VirtualMachine 10 100).defineFunction "7" 1).execute OpCode.CALLFROMCPP [8, 42]
        = some { VirtualMachine 10 100 with
            functionTable := [("7", 1)], output := [Event.cerr "无法找到方法"] } :=
  ⟨(C13_native_dispatch ((VirtualMachine 10 100).defineFunction "7" 1) 7 42 1).2.1 (by decide),
   (C13_native_dispatch ((VirtualMachine 10 100).defineFunction "7" 1) 8 42 1).2.2.1 (by decide)⟩

/-! ## LOG -/

theorem takeWhile_eq_take (l : List Nat) (k : Nat) (h0 : l[k]? = some 0)
    (hmin : ∀ i, i < k → l[i]? ≠ some 0) :
    l.takeWhile (fun c => c != 0) = l.take k := by
  induction l generalizing k with
  | nil => simp at h0
  | cons x xs ih =>
      cases k with
      | zero =>
          simp only [List.getElem?_cons_zero, Option.some.injEq] at h0
          simp [h0]
      | succ k =>
          have hx : x ≠ 0 := by
            have h := hmin 0 (Nat.succ_pos k)
            simpa using h
          have hrest : ∀ i, i < k → xs[i]? ≠ some 0 := by
            intro i hi
            have h := hmin (i + 1) (Nat.succ_lt_succ hi)
            simpa using h
          simp only [List.getElem?_cons_succ] at h0
          simp [List.takeWhile_cons, hx, ih k h0 hrest]

/-- C14: when `addr` is inside the memory and `z` is the smallest index from
`addr` on at which the memory holds zero, LOG `[addr]` succeeds and its only
effect is to send the bytes `memory[addr .. z-1]`, unchanged, to `std::cout` as
one line (the text is followed by `std::endl`): the terminator and what lies
beyond it are not emitted, and the machine state is otherwise unchanged. -/
theorem C14_log (s : State) (addr z : Nat)
    (hz1 : addr ≤ z) (hz2 : z < s.memory.length) (hz0 : s.memory[z]? = some 0)
    (hmin : ∀ i, addr ≤ i → i < z → s.memory[i]? ≠ some 0) :
    s.execute OpCode.LOG [addr]
      = some { s with
          output := s.output ++ [Event.cout ((s.memory.drop addr).take (z - addr))] } := by
  have haddr : addr < s.memory.length := Nat.lt_of_le_of_lt hz1 hz2
  have h0 : (s.memory.drop addr)[z - addr]? = some 0 := by
    rw [List.getElem?_drop, Nat.add_sub_cancel' hz1]
    exact hz0
  have hm : ∀ i, i < z - addr → (s.memory.drop addr)[i]? ≠ some 0 := by
    intro i hi
    rw [List.getElem?_drop]
    exact hmin (addr + i) (Nat.le_add_right _ _) (by omega)
  have htw := takeWhile_eq_take (s.memory.drop addr) (z - addr) h0 hm
  have hlen : ((s.memory.drop addr).take (z - addr)).length < (s.memory.drop addr).length := by
    simp only [List.length_take, List.length_drop]
    omega
  simp only [execute, htw, hlen, haddr, emit, List.getElem?_cons_zero, Option.bind_eq_bind,
    Option.some_bind, if_true]

/-- Witness of C14: on the memory `example1.cpp` prepares, LOG `[0]` prints
exactly `Hello, World!`, and so does the whole `main` of the example. -/
theorem C14_log_witness :
    (VirtualMachine 10 100).loadMemory helloWorldString 0
        = some { VirtualMachine 10 100 with memory := helloWorldString ++ List.replicate 86 0 }
    ∧ ({ VirtualMachine 10 100 with
          memory := helloWorldString ++ List.replicate 86 0 } : State).execute OpCode.LOG [0]
        = some { VirtualMachine 10 100 with
            memory := helloWorldString ++ List.replicate 86 0
            output := [Event.cout [72, 101, 108, 108, 111, 44, 32, 87, 111, 114, 108, 100, 33]] }
    ∧ example1.map State.output
        = some [Event.cout [72, 101, 108, 108, 111, 44, 32, 87, 111, 114, 108, 100, 33]] :=
  ⟨by decide,
   C14_log { VirtualMachine 10 100 with memory := helloWorldString ++ List.replicate 86 0 } 0 13
     (by decide) (by decide) (by decide) (by decide),
   by decide⟩

/-! ## Snapshot layout -/

theorem writeWords_eq_flatMap (ws : List Nat) : writeWords ws = ws.flatMap (toBytes 4) := by
  induction ws with
  | nil => rfl
  | cons w ws ih => simp only [writeWords, List.flatMap_cons, ih]

theorem writeInstructions_eq_flatMap (is : List (Nat × List Nat)) :
    writeInstructions is
      = is.flatMap fun i =>
          List.flatten [toBytes 4 i.1, toBytes 8 i.2.length, i.2.flatMap (toBytes 4)] := by
  induction is with
  | nil => rfl
  | cons i is ih =>
      obtain ⟨op, operands⟩ := i
      simp only [writeInstructions, List.flatMap_cons, ih, writeWords_eq_flatMap,
        List.flatten_cons, List.flatten_nil, List.append_nil, List.append_assoc]

/-- C15: the bytes `saveStateToFile` writes are exactly the concatenation, in
this order and with nothing in between, of the register words in index order,
the memory bytes in address order, the stack element count, the stack elements
from the top down, the program counter, the sign flag, the carry flag, the
instruction count, and for each instruction in program order its opcode, its
operand count and its operand words (words on four bytes, counts on eight, a
flag on one, lowest byte first). -/
theorem C15_snapshot_layout (s : State) : s.saveStateToFile = s.snapshotLayout := by
  simp only [saveStateToFile, snapshotLayout, writeWords_eq_flatMap,
    writeInstructions_eq_flatMap, List.flatten_cons, List.flatten_nil, List.append_nil,
    List.append_assoc]

/-! ## Jumps -/

/-- C16: JMP `[t]` sets the program counter to `t`; JZ `[r, t]` does so when
register `r` (read through `getRegister`, so register `r` itself when `r` is
valid) is zero and JNZ `[r, t]` when it is not; JS, JNS, JC, JNC `[t]` do so
when the sign flag is set, clear, the carry flag is set, clear. Otherwise the
state is returned as it is; registers, memory, stack and flags never change. -/
theorem C16_jumps (s : State) (r t : Nat) :
    s.execute OpCode.JMP [t] = some { s with programCounter := t }
    ∧ s.execute OpCode.JZ [r, t]
        = some (if s.getRegister r = 0 then { s with programCounter := t } else s)
    ∧ s.execute OpCode.JNZ [r, t]
        = some (if s.getRegister r ≠ 0 then { s with programCounter := t } else s)
    ∧ s.execute OpCode.JS [t]
        = some (if s.signFlag = true then { s with programCounter := t } else s)
    ∧ s.execute OpCode.JNS [t]
        = some (if s.signFlag = false then { s with programCounter := t } else s)
    ∧ s.execute OpCode.JC [t]
        = some (if s.carryFlag = true then { s with programCounter := t } else s)
    ∧ s.execute OpCode.JNC [t]
        = some (if s.carryFlag = false then { s with programCounter := t } else s) := by
  refine ⟨?_, ?_, ?_, ?_, ?_, ?_, ?_⟩
  · simp [execute, setProgramCounter]
  · by_cases h : s.getRegister r = 0 <;> simp [execute, setProgramCounter, h]
  · by_cases h : s.getRegister r = 0 <;> simp [execute, setProgramCounter, h]
  · cases h : s.signFlag <;> simp [execute, setProgramCounter, h]
  · cases h : s.signFlag <;> simp [execute, setProgramCounter, h]
  · cases h : s.carryFlag <;> simp [execute, setProgramCounter, h]
  · cases h : s.carryFlag <;> simp [execute, setProgramCounter, h]

/-! ## TEST -/

/-- C17: for a valid register index `r`, TEST `[r]` succeeds and yields the
starting state with the sign flag set iff register `r` is negative as a signed
32-bit integer, which for a 32-bit word is `2 ^ 31 ≤ reg r`, and the carry flag
set iff register `r` is not zero; nothing else changes. -/
theorem C17_test (s : State) (r : Nat) (hr : r < s.registers.length)
    (hw : ∀ w ∈ s.registers, w < 2 ^ 32) :
    s.execute OpCode.TEST [r]
        = some { s with
            signFlag := decide (toInt32 (s.getRegister r) < 0)
            carryFlag := decide (s.getRegister r ≠ 0) }
    ∧ (toInt32 (s.getRegister r) < 0 ↔ 2 ^ 31 ≤ s.getRegister r) := by
  have er := s.registers_getElem? r hr
  have hx := hw _ (s.registers_mem r hr)
  constructor
  · simp [execute, er]
  · unfold toInt32
    split <;> omega

/-- Witness of C17: `0x80000000` is negative and not zero, both flags come out
set. -/
theorem C17_test_witness :
    ({ VirtualMachine 1 0 with registers := [0x80000000] } : State).execute OpCode.TEST [0]
      = some { VirtualMachine 1 0 with
          registers := [0x80000000], signFlag := true, carryFlag := true } :=
  (C17_test { VirtualMachine 1 0 with registers := [0x80000000] } 0 (by decide) (by decide)).1

/-! ## Byte-wide memory access -/

/-- C18: for valid register indices `r`, `d` and an address `addr` inside the
memory, STORE `[r, addr]` succeeds and only replaces the memory byte at `addr`
by `reg r % 256`; LOAD `[d, addr]` succeeds and only replaces register `d` by
the byte at `addr`, a value below `256`; and STORE `[r, addr]` followed by LOAD
`[d, addr]` leaves `reg r % 256` in register `d` (taken before the STORE). -/
theorem C18_store_load (s : State) (r d addr : Nat)
    (hr : r < s.registers.length) (hd : d < s.registers.length)
    (ha : addr < s.memory.length) (hmem : ∀ b ∈ s.memory, b < 256) :
    s.execute OpCode.STORE [r, addr]
        = some { s with memory := s.memory.set addr (s.getRegister r % 256) }
    ∧ s.execute OpCode.LOAD [d, addr]
        = some { s with registers := s.registers.set d s.memory[addr] }
    ∧ s.memory[addr] < 256
    ∧ ((s.execute OpCode.STORE [r, addr]).bind fun s1 => s1.execute OpCode.LOAD [d, addr])
        = some { s with
            memory := s.memory.set addr (s.getRegister r % 256)
            registers := s.registers.set d (s.getRegister r % 256) } := by
  have er := s.registers_getElem? r hr
  have em : s.memory[addr]? = some s.memory[addr] := List.getElem?_eq_getElem ha
  have hstore : s.execute OpCode.STORE [r, addr]
      = some { s with memory := s.memory.set addr (s.getRegister r % 256) } := by
    simp only [execute, writeMem, er, ha, List.getElem?_cons_zero, List.getElem?_cons_succ,
      Option.bind_eq_bind, Option.some_bind, if_true]
  refine ⟨hstore, ?_, hmem _ (List.getElem_mem ha), ?_⟩
  · simp only [execute, writeReg, em, hd, List.getElem?_cons_zero, List.getElem?_cons_succ,
      Option.bind_eq_bind, Option.some_bind, if_true]
  · rw [hstore]
    simp only [execute, writeReg, hd, List.getElem?_set_self ha, List.getElem?_cons_zero,
      List.getElem?_cons_succ, Option.bind_eq_bind, Option.some_bind, if_true]

/-- Witness of C18: `r0 = 0x1234` stored at address `1` and loaded into `r1`
leaves `0x34` in the memory byte and in `r1`. -/
theorem C18_store_load_witness :
    (({ VirtualMachine 2 3 with registers := [0x1234, 0] } : State).execute
        OpCode.STORE [0, 1]).bind (fun s1 => s1.execute OpCode.LOAD [1, 1])
      = some { VirtualMachine 2 3 with registers := [0x1234, 0x34], memory := [0, 0x34, 0] } :=
  (C18_store_load { VirtualMachine 2 3 with registers := [0x1234, 0] } 0 1 1
    (by decide) (by decide) (by decide) (by decide)).2.2.2

/-! ## The exact effect of a save and load cycle -/

/-- C19: let `s` be a well-formed state and `v` a machine with as many registers
and as much memory as `s` and an empty stack. Loading the snapshot of `s` into
`v` yields exactly the outcome of running the program of `s` once from `s` with
its stack reversed (on the function table and the output trace of `v`, which a
snapshot does not hold; they are those of `s` when `v` has the ones of `s`).
When the program of `s` is empty, registers, memory, program counter and flags
are those of `s` and the stack is the reverse of the stack of `s`; a second save
and load cycle then gives back the stack order of `s`. -/
theorem C19_save_load_exact (s v : State) (hs : s.WF)
    (hr : v.registers.length = s.registers.length)
    (hm : v.memory.length = s.memory.length)
    (hv : v.stack = []) :
    v.loadStateFromFile s.saveStateToFile
        = ({ s with
            stack := s.stack.reverse
            functionTable := v.functionTable
            output := v.output } : State).executeInstructions
    ∧ (v.functionTable = s.functionTable → v.output = s.output →
        v.loadStateFromFile s.saveStateToFile
          = ({ s with stack := s.stack.reverse } : State).executeInstructions)
    ∧ (s.instructions = [] →
        v.loadStateFromFile s.saveStateToFile
          = some { s with
              stack := s.stack.reverse
              functionTable := v.functionTable
              output := v.output })
    ∧ (s.instructions = [] →
        ((v.loadStateFromFile s.saveStateToFile).bind fun t =>
            v.loadStateFromFile t.saveStateToFile)
          = some { s with functionTable := v.functionTable, output := v.output }) := by
  have hread := readState_saveStateToFile s v hs hr hm
  rw [hv, List.append_nil] at hread
  have hload : v.loadStateFromFile s.saveStateToFile
      = ({ s with
          stack := s.stack.reverse
          functionTable := v.functionTable
          output := v.output } : State).executeInstructions := by
    simp only [loadStateFromFile, hread]
  have hempty : s.instructions = [] →
      v.loadStateFromFile s.saveStateToFile
        = some { s with
            stack := s.stack.reverse
            functionTable := v.functionTable
            output := v.output } := by
    intro hnil
    rw [hload]
    simp only [executeInstructions, hnil, run]
  refine ⟨hload, ?_, hempty, ?_⟩
  · intro hf ho
    rw [hload, hf, ho]
  · intro hnil
    rw [hempty hnil]
    obtain ⟨h1, h2, h3, h4, h5, h6, h7⟩ := hs
    have hs2 : ({ s with
          stack := s.stack.reverse
          functionTable := v.functionTable
          output := v.output } : State).WF :=
      ⟨h1, h2, fun w hw => h3 w (List.mem_reverse.mp hw), by simpa using h4, h5, h6, h7⟩
    have hread2 := readState_saveStateToFile _ v hs2 hr hm
    rw [hv, List.append_nil] at hread2
    simp only [Option.some_bind, loadStateFromFile, hread2]
    simp only [executeInstructions, hnil, run, List.reverse_reverse]

/-- Witness of C19: a machine with the stack `[1, 2, 3]` and no program comes
back from one cycle with the stack `[3, 2, 1]` and from two cycles as it was. -/
theorem C19_save_load_exact_witness :
    (VirtualMachine 2 3).loadStateFromFile
        ({ VirtualMachine 2 3 with
            registers := [7, 8], memory := [1, 2, 3], stack := [1, 2, 3],
            programCounter := 5, carryFlag := true } : State).saveStateToFile
      = some { VirtualMachine 2 3 with
            registers := [7, 8], memory := [1, 2, 3], stack := [3, 2, 1],
            programCounter := 5, carryFlag := true }
    ∧ (((VirtualMachine 2 3).loadStateFromFile
        ({ VirtualMachine 2 3 with
            registers := [7, 8], memory := [1, 2, 3], stack := [1, 2, 3],
            programCounter := 5, carryFlag := true } : State).saveStateToFile).bind fun t =>
          (VirtualMachine 2 3).loadStateFromFile t.saveStateToFile)
      = some { VirtualMachine 2 3 with
            registers := [7, 8], memory := [1, 2, 3], stack := [1, 2, 3],
            programCounter := 5, carryFlag := true } :=
  ⟨(C19_save_load_exact
      { VirtualMachine 2 3 with
          registers := [7, 8], memory := [1, 2, 3], stack := [1, 2, 3],
          programCounter := 5, carryFlag := true }
      (VirtualMachine 2 3) (by decide) (by decide) (by decide) (by decide)).2.2.1 (by decide),
   (C19_save_load_exact
      { VirtualMachine 2 3 with
          registers := [7, 8], memory := [1, 2, 3], stack := [1, 2, 3],
          programCounter := 5, carryFlag := true }
      (VirtualMachine 2 3) (by decide) (by decide) (by decide) (by decide)).2.2.2 (by decide)⟩

/-! ## Two's-complement negation -/

/-- C20: for valid register indices `a`, `b` (`a = b` allowed) on 32-bit words,
NEG `[a, b]` succeeds and yields exactly the state that NOT `[a, b]` followed by
INC `[b]` yields: the starting state with register `b` replaced by
`(2 ^ 32 - reg a) % 2 ^ 32`, which is `((2 ^ 32 - 1 - reg a) + 1) % 2 ^ 32`. -/
theorem C20_neg_not_inc (s : State) (a b : Nat)
    (ha : a < s.registers.length) (hb : b < s.registers.length)
    (hw : ∀ w ∈ s.registers, w < 2 ^ 32) :
    s.execute OpCode.NEG [a, b]
        = ((s.execute OpCode.NOT [a, b]).bind fun s1 => s1.execute OpCode.INC [b])
    ∧ s.execute OpCode.NEG [a, b]
        = some { s with registers := s.registers.set b ((2 ^ 32 - s.getRegister a) % 2 ^ 32) }
    ∧ (2 ^ 32 - s.getRegister a) % 2 ^ 32 = ((2 ^ 32 - 1 - s.getRegister a) + 1) % 2 ^ 32 := by
  have ea := s.registers_getElem? a ha
  have hx := hw _ (s.registers_mem a ha)
  have harith : (2 ^ 32 - s.getRegister a) % 2 ^ 32
      = ((2 ^ 32 - 1 - s.getRegister a) + 1) % 2 ^ 32 := by
    omega
  have hneg : s.execute OpCode.NEG [a, b]
      = some { s with registers := s.registers.set b ((2 ^ 32 - s.getRegister a) % 2 ^ 32) } := by
    simp only [execute, writeReg, ea, hb, List.getElem?_cons_zero, List.getElem?_cons_succ,
      Option.bind_eq_bind, Option.some_bind, if_true]
  have hnot : s.execute OpCode.NOT [a, b]
      = some { s with registers := s.registers.set b (2 ^ 32 - 1 - s.getRegister a) } := by
    simp only [execute, writeReg, ea, hb, List.getElem?_cons_zero, List.getElem?_cons_succ,
      Option.bind_eq_bind, Option.some_bind, if_true]
  refine ⟨?_, hneg, harith⟩
  rw [hneg, hnot]
  simp only [execute, writeReg, hb, List.getElem?_set_self hb, List.length_set, List.set_set,
    harith, List.getElem?_cons_zero, Option.bind_eq_bind, Option.some_bind, if_true]

/-- Witness of C20 with `a = b`: `r0 = 1` is negated in place to `0xFFFFFFFF`,
by NEG as by NOT then INC. -/
theorem C20_neg_not_inc_witness :
    ({ VirtualMachine 1 0 with registers := [1] } : State).execute OpCode.NEG [0, 0]
        = some { VirtualMachine 1 0 with registers := [0xFFFFFFFF] }
    ∧ (({ VirtualMachine 1 0 with registers := [1] } : State).execute OpCode.NOT [0, 0]).bind
          (fun s1 => s1.execute OpCode.INC [0])
        = some { VirtualMachine 1 0 with registers := [0xFFFFFFFF] } :=
  ⟨(C20_neg_not_inc { VirtualMachine 1 0 with registers := [1] } 0 0
      (by decide) (by decide) (by decide)).2.1,
   (C20_neg_not_inc { VirtualMachine 1 0 with registers := [1] } 0 0
      (by decide) (by decide) (by decide)).1.symm.trans
    (C20_neg_not_inc { VirtualMachine 1 0 with registers := [1] } 0 0
      (by decide) (by decide) (by decide)).2.1⟩

end EtherealEcho
